import Mathlib

/-!
Verification development for the retrieval-and-filtering pipeline of the
Automated Multi-Source Competitive Intelligence Reporter.

The embedding follows the source files `retriever.py` and `agent.py`:
  * `Document` models `langchain.schema.Document` (a text body plus a
    string-to-string metadata mapping, modelled as an association list);
  * date parsing models the Python standard-library calls used by
    `filter_documents_by_date` (`datetime.strptime` with format
    `%Y-%m-%d`, and `datetime.fromisoformat` after replacing `Z` with
    `+00:00`, with the timezone information discarded);
  * `filter_documents_by_date`, `process_and_store_documents` and
    `retrieve_and_filter_context` are translated from `retriever.py`
    lines 41-110 and `agent.py` lines 118-146; a Python exception that
    escapes a function is modelled as `none` (for the date filter, whose
    cutoff parse may raise `ValueError`) or as `Except.error`
    (for the vector-store upsert);
  * the chunker (`RecursiveCharacterTextSplitter`) is library code that is
    not part of this repository; it is modelled from the specification.
-/

namespace CIR

/-- Naive datetime, modelling Python `datetime.datetime` with the timezone
stripped.  Microseconds are omitted: every cutoff produced by
`datetime.strptime` with format `%Y-%m-%d` has zero microseconds, so the
comparison `publish_date >= start_date` performed by the filter never
depends on the microsecond field of the publish date. -/
structure DateTime where
  year : Nat
  month : Nat
  day : Nat
  hour : Nat
  minute : Nat
  second : Nat
deriving DecidableEq, Repr

/-- Lexicographic comparison of naive datetimes, modelling Python
comparison of `datetime` objects field by field. -/
def DateTime.le (a b : DateTime) : Bool :=
  if a.year ≠ b.year then decide (a.year < b.year)
  else if a.month ≠ b.month then decide (a.month < b.month)
  else if a.day ≠ b.day then decide (a.day < b.day)
  else if a.hour ≠ b.hour then decide (a.hour < b.hour)
  else if a.minute ≠ b.minute then decide (a.minute < b.minute)
  else decide (a.second ≤ b.second)

/-- Numeric value of a decimal digit character. -/
def digitVal (ch : Char) : Nat := ch.toNat - '0'.toNat

/-- Read exactly `n` decimal digits, accumulating their value onto `acc`;
fails if a non-digit or the end of input is met first. -/
def readFixedDigits : Nat → Nat → List Char → Option (Nat × List Char)
  | 0, acc, cs => some (acc, cs)
  | n + 1, acc, ch :: cs =>
      if ch.isDigit then readFixedDigits n (acc * 10 + digitVal ch) cs else none
  | _ + 1, _, [] => none

/-- Read one or two decimal digits (greedy), as the lenient month and day
fields of `strptime` format `%Y-%m-%d` allow. -/
def read1or2Digits : List Char → Option (Nat × List Char)
  | ch1 :: ch2 :: cs =>
      if ch1.isDigit then
        if ch2.isDigit then some (digitVal ch1 * 10 + digitVal ch2, cs)
        else some (digitVal ch1, ch2 :: cs)
      else none
  | [ch1] => if ch1.isDigit then some (digitVal ch1, []) else none
  | [] => none

/-- Consume one expected character. -/
def expectChar (ch : Char) : List Char → Option (List Char)
  | c :: cs => if c = ch then some cs else none
  | [] => none

/-- Gregorian leap-year rule, as used by Python `datetime` validation. -/
def isLeapYear (y : Nat) : Bool :=
  (y % 4 == 0 && !(y % 100 == 0)) || y % 400 == 0

/-- Number of days in a month, as used by Python `datetime` validation. -/
def daysInMonth (y m : Nat) : Nat :=
  if m = 2 then (if isLeapYear y then 29 else 28)
  else if m = 4 ∨ m = 6 ∨ m = 9 ∨ m = 11 then 30
  else 31

/-- Model of `datetime.strptime(s, "%Y-%m-%d")`: a four-digit year, a dash,
a one-or-two-digit month in 1..12, a dash, a one-or-two-digit day valid for
that month, and nothing after it; the result is midnight of that date. -/
def parseYMDCore (cs : List Char) : Option DateTime := do
  let (y, r1) ← readFixedDigits 4 0 cs
  let r2 ← expectChar '-' r1
  let (m, r3) ← read1or2Digits r2
  if 1 ≤ m ∧ m ≤ 12 then
    let r4 ← expectChar '-' r3
    let (d, r5) ← read1or2Digits r4
    if 1 ≤ d ∧ d ≤ daysInMonth y m ∧ r5 = [] then
      some ⟨y, m, d, 0, 0, 0⟩
    else none
  else none

/-- Model of `datetime.strptime(s, "%Y-%m-%d")` on a string. -/
def parseYMD (s : String) : Option DateTime := parseYMDCore s.data

/-- Skip a fractional-second field of one to six digits (the value is
irrelevant to the comparison performed by the filter, see `DateTime`). -/
def readFraction (cs : List Char) : Option (List Char) :=
  let ds := cs.takeWhile Char.isDigit
  if 1 ≤ ds.length ∧ ds.length ≤ 6 then some (cs.drop ds.length) else none

/-- Model of the time part accepted by `datetime.fromisoformat`:
`HH`, optionally `:MM`, optionally `:SS`, optionally a fractional part. -/
def parseHMS (cs : List Char) : Option (Nat × Nat × Nat × List Char) := do
  let (hh, r1) ← readFixedDigits 2 0 cs
  if hh ≤ 23 then
    match r1 with
    | ':' :: r2 => do
      let (mi, r3) ← readFixedDigits 2 0 r2
      if mi ≤ 59 then
        match r3 with
        | ':' :: r4 => do
          let (ss, r5) ← readFixedDigits 2 0 r4
          if ss ≤ 59 then
            match r5 with
            | '.' :: r6 => do
              let r7 ← readFraction r6
              some (hh, mi, ss, r7)
            | _ => some (hh, mi, ss, r5)
          else none
        | _ => some (hh, mi, 0, r3)
      else none
    | _ => some (hh, 0, 0, r1)
  else none

/-- Model of the trailing UTC-offset field accepted by
`datetime.fromisoformat` (`+HH:MM` style); the offset is parsed for
validity and then discarded, as `.replace(tzinfo=None)` discards it. -/
def parseOffset (cs : List Char) : Option Unit :=
  match cs with
  | [] => some ()
  | sign :: r1 =>
    if sign = '+' ∨ sign = '-' then
      match parseHMS r1 with
      | some (_, _, _, rest) => if rest = [] then some () else none
      | none => none
    else none

/-- Model of `datetime.fromisoformat(s).replace(tzinfo=None)` on the
shapes reachable from the filter: `YYYY-MM-DD`, optionally followed by a
one-character separator, a time `HH[:MM[:SS[.ffffff]]]`, and an optional
UTC offset which is discarded. -/
def fromisoformatNaive (cs : List Char) : Option DateTime := do
  let (y, r1) ← readFixedDigits 4 0 cs
  let r2 ← expectChar '-' r1
  let (m, r3) ← readFixedDigits 2 0 r2
  if 1 ≤ m ∧ m ≤ 12 then
    let r4 ← expectChar '-' r3
    let (d, r5) ← readFixedDigits 2 0 r4
    if 1 ≤ d ∧ d ≤ daysInMonth y m then
      match r5 with
      | [] => some ⟨y, m, d, 0, 0, 0⟩
      | _sep :: tcs => do
        let (hh, mi, ss, rest) ← parseHMS tcs
        let _ ← parseOffset rest
        some ⟨y, m, d, hh, mi, ss⟩
    else none
  else none

/-- Model of Python `str.replace("Z", "+00:00")` on a character list. -/
def replaceZ (cs : List Char) : List Char :=
  (cs.map (fun ch => if ch = 'Z' then ['+', '0', '0', ':', '0', '0'] else [ch])).flatten

/-- Publish-date parsing performed by `filter_documents_by_date`
(`retriever.py` lines 93-96): if the string contains `T` it is parsed with
`fromisoformat` after replacing `Z` with `+00:00` and the timezone is
discarded; otherwise it is parsed as a plain `YYYY-MM-DD` date. -/
def parse_publish_date (s : String) : Option DateTime :=
  if s.data.contains 'T' then fromisoformatNaive (replaceZ s.data)
  else parseYMDCore s.data

/-- Model of `langchain.schema.Document`: a text body (`page_content`,
as a character list) and a string-keyed metadata mapping, modelled as an
association list with the first binding of a key winning, as a Python
dict read by `.get` behaves. -/
structure Document where
  page_content : List Char
  metadata : List (String × String)
deriving DecidableEq, Repr

/-- Model of Python `metadata.get(key)`: `none` when the key is absent. -/
def metaGet (m : List (String × String)) (key : String) : Option String :=
  (m.find? (fun p => p.1 == key)).map (fun p => p.2)

/-- The `source` metadata value of a document, `doc.metadata.get("source")`. -/
def sourceOf (d : Document) : Option String := metaGet d.metadata ("source")

/-- Whether a document has metadata source `"newsapi"`. -/
def isNewsSource (d : Document) : Bool := decide (sourceOf d = some ("newsapi"))

/-- Whether a document has metadata source `"website"`. -/
def isWebsiteSource (d : Document) : Bool := decide (sourceOf d = some ("website"))

/-- The per-news-document keep condition of `filter_documents_by_date`
(`retriever.py` lines 89-104): the `publish_date` metadata is present and
truthy (non-empty), parses, and the parsed date is at least the cutoff. -/
def newsKeep (c : DateTime) (d : Document) : Bool :=
  match metaGet d.metadata ("publish_date") with
  | some pds =>
      if pds.isEmpty then false
      else
        match parse_publish_date pds with
        | some p => DateTime.le c p
        | none => false
  | none => false

/-- The keep condition applied to an arbitrary document by the loop of
`filter_documents_by_date`: news documents are kept when `newsKeep` holds,
every other document is kept unconditionally. -/
def keepDoc (c : DateTime) (d : Document) : Bool :=
  if sourceOf d = some ("newsapi") then newsKeep c d else true

/-- The accumulation loop of `filter_documents_by_date` (`retriever.py`
lines 85-107), translated clause by clause: news documents are appended
only when their publish date is present, parses and is at least the
cutoff; a parse failure is caught (`except ValueError`) and the document
is skipped; every non-news document is appended. -/
def filterLoop (c : DateTime) : List Document → List Document
  | [] => []
  | d :: ds =>
    if sourceOf d = some ("newsapi") then
      match metaGet d.metadata ("publish_date") with
      | some pds =>
          if pds.isEmpty then filterLoop c ds
          else
            match parse_publish_date pds with
            | some p =>
                if DateTime.le c p then d :: filterLoop c ds else filterLoop c ds
            | none => filterLoop c ds
      | none => filterLoop c ds
    else d :: filterLoop c ds

/-- Translation of `filter_documents_by_date` (`retriever.py` lines
73-110).  An empty input returns an empty list before the cutoff string is
parsed; otherwise the cutoff is parsed with `strptime` format `%Y-%m-%d`
(`none` models the `ValueError` that would propagate to the caller) and
the loop is run. -/
def filter_documents_by_date (docs : List Document) (start_date_str : String) :
    Option (List Document) :=
  if docs.isEmpty then some []
  else (parseYMD start_date_str).map (fun c => filterLoop c docs)

/-- Translation of the filter-and-combine step of
`retrieve_and_filter_context` (`agent.py` lines 130-138), before the
truncation: the retrieved candidates with source `"newsapi"` are passed
through `filter_documents_by_date`, and the retrieved candidates with
source `"website"` are appended after them. -/
def combined_filtered (retrieved_docs : List Document) (start_date_str : String) :
    Option (List Document) :=
  (filter_documents_by_date (retrieved_docs.filter isNewsSource) start_date_str).map
    (fun filtered => filtered ++ retrieved_docs.filter isWebsiteSource)

/-- Translation of `retrieve_and_filter_context` (`agent.py` lines
118-146).  The similarity search itself is an external collaborator, so
the list of retrieved candidates is a parameter, as is the cutoff string
that the caller derives from `days_back`.  News candidates are date
filtered, website candidates are appended after them, and the first seven
entries of the combined list are returned. -/
def retrieve_and_filter_context (retrieved_docs : List Document)
    (start_date_str : String) : Option (List Document) :=
  match filter_documents_by_date (retrieved_docs.filter isNewsSource) start_date_str with
  | none => none
  | some filtered =>
      some ((filtered ++ retrieved_docs.filter isWebsiteSource).take 7)

/-- Modelled from the spec: the sliding-window text splitting performed by
`RecursiveCharacterTextSplitter` (LangChain library code, not part of
`src/`), per section 4.1 of the specification: a document no longer than
`c` characters is a single chunk; a longer one is cut into successive
windows of `c` characters whose start positions advance by `step`
characters (`step = c - o` for overlap `o`), the final window holding
whatever remains.  `fuel` bounds the recursion by the input length. -/
def windowsGo (c step : Nat) : Nat → List Char → List (List Char)
  | 0, s => [s]
  | fuel + 1, s =>
      if s.length ≤ c ∨ step = 0 then [s]
      else s.take c :: windowsGo c step fuel (s.drop step)

/-- Sliding windows of width `c` advancing by `step`, see `windowsGo`. -/
def windows (c step : Nat) (s : List Char) : List (List Char) :=
  windowsGo c step s.length s

/-- Modelled from the spec: chunking of one document by the Chunker
(`RecursiveCharacterTextSplitter`, library code not part of `src/`),
per section 4.1 of the specification: an empty or all-whitespace document
yields zero chunks; otherwise the content is cut into windows of
`chunk_size` characters overlapping by `chunk_overlap` characters, and
every chunk copies the parent metadata verbatim. -/
def chunk_document (chunk_size chunk_overlap : Nat) (d : Document) : List Document :=
  if d.page_content.all Char.isWhitespace then []
  else
    (windows chunk_size (chunk_size - chunk_overlap) d.page_content).map
      (fun t => { page_content := t, metadata := d.metadata })

/-- The chunking call of `process_and_store_documents` (`retriever.py`
lines 48-54): every document is chunked with `chunk_size = 1000` and
`chunk_overlap = 200`, and the chunk lists are concatenated. -/
def split_documents (docs : List Document) : List Document :=
  docs.flatMap (chunk_document 1000 200)

/-- The typed failures of the Vector Index named by the specification. -/
inductive UpsertError where
  | embeddingError : UpsertError
  | storageError : UpsertError
deriving DecidableEq, Repr

/-- Translation of `process_and_store_documents` (`retriever.py` lines
41-67).  The vector store is modelled as the list of chunks it holds and
the external `add_documents` operation is a parameter that either returns
the new store contents or fails.  The translation mirrors the source
exactly: an empty input returns early, a chunking that yields zero chunks
returns early, and a failure of `add_documents` is caught by the broad
`except Exception` handler, logged, and swallowed, the function returning
normally with the store unchanged. -/
def process_and_store_documents (docs store : List Document)
    (add_documents : List Document → List Document → Except UpsertError (List Document)) :
    Except UpsertError (List Document) :=
  if docs.isEmpty then Except.ok store
  else if (split_documents docs).isEmpty then Except.ok store
  else
    match add_documents store (split_documents docs) with
    | Except.ok newStore => Except.ok newStore
    | Except.error _ => Except.ok store

/-- The unique, non-overlap spans of a chunk list with overlap `o`: the
first chunk in full, every later chunk with its first `o` characters
(shared with the previous chunk) removed, concatenated in order. -/
def uniqueConcat (o : Nat) : List (List Char) → List Char
  | [] => []
  | w :: ws => w ++ (ws.map (List.drop o)).flatten

/-- An `add_documents` behaviour that always fails with a storage error,
modelling an unavailable persistent backing store. -/
def failingAdd : List Document → List Document → Except UpsertError (List Document) :=
  fun _ _ => Except.error UpsertError.storageError

/-- Sample news document whose publish date is 2024-06-01. -/
def newsDocJun : Document :=
  { page_content := ['a', 'b', 'c'],
    metadata := [("source", "newsapi"), ("publish_date", "2024-06-01")] }

/-- Sample news document whose publish date is 2024-05-01. -/
def newsDocMay : Document :=
  { page_content := ['d', 'e'],
    metadata := [("source", "newsapi"), ("publish_date", "2024-05-01")] }

/-- Sample website document with no publish date. -/
def webDoc : Document :=
  { page_content := ['w'], metadata := [("source", "website")] }

/-- Sample document from an unrecognised source. -/
def blogDoc : Document :=
  { page_content := ['b'], metadata := [("source", "blog")] }

/-- Sample whitespace-only document. -/
def wsDoc : Document :=
  { page_content := [' '], metadata := [("source", "website")] }

/-- Midnight of 2024-05-25, the sample cutoff. -/
def cutD : DateTime := ⟨2024, 5, 25, 0, 0, 0⟩

/-! Helper lemmas shared by the claim theorems. -/

/-- The accumulation loop of the date filter is a `List.filter` by the
per-document keep condition `keepDoc`. -/
theorem filterLoop_eq_filter (c : DateTime) (docs : List Document) :
    filterLoop c docs = docs.filter (keepDoc c) := by
  induction docs with
  | nil => rfl
  | cons d ds ih =>
    by_cases hs : sourceOf d = some ("newsapi")
    · cases hpd : metaGet d.metadata ("publish_date") with
      | none => simp [filterLoop, List.filter_cons, keepDoc, newsKeep, hs, hpd, ih]
      | some pds =>
        by_cases he : pds.isEmpty = true
        · simp [filterLoop, List.filter_cons, keepDoc, newsKeep, hs, hpd, he, ih]
        · cases hpp : parse_publish_date pds with
          | none =>
            simp [filterLoop, List.filter_cons, keepDoc, newsKeep, hs, hpd, he, hpp, ih]
          | some p =>
            by_cases hle : DateTime.le c p = true
            · simp [filterLoop, List.filter_cons, keepDoc, newsKeep, hs, hpd, he, hpp,
                hle, ih]
            · simp [filterLoop, List.filter_cons, keepDoc, newsKeep, hs, hpd, he, hpp,
                hle, ih]
    · simp [filterLoop, List.filter_cons, keepDoc, hs, ih]

/-- A successful run of `filter_documents_by_date` is either the
empty-input early return or the loop under a parsed cutoff. -/
theorem filter_dbd_some {docs : List Document} {s : String} {out : List Document}
    (h : filter_documents_by_date docs s = some out) :
    (docs = [] ∧ out = []) ∨
      ∃ c, parseYMD s = some c ∧ out = docs.filter (keepDoc c) := by
  unfold filter_documents_by_date at h
  by_cases hd : docs.isEmpty = true
  · left
    rw [if_pos hd] at h
    exact ⟨List.isEmpty_iff.mp hd, (Option.some.inj h).symm⟩
  · right
    rw [if_neg hd] at h
    cases hp : parseYMD s with
    | none => rw [hp] at h; exact absurd h (by simp)
    | some c =>
      rw [hp] at h
      have h2 : filterLoop c docs = out := by simpa using h
      exact ⟨c, rfl, by rw [← h2, filterLoop_eq_filter]⟩

/-- Filtering by the keep condition does not change the sub-list of
non-news documents. -/
theorem filter_keep_passthrough (c : DateTime) (docs : List Document) :
    (docs.filter (keepDoc c)).filter (fun x => !(isNewsSource x)) =
      docs.filter (fun x => !(isNewsSource x)) := by
  induction docs with
  | nil => rfl
  | cons d ds ih =>
    by_cases hs : sourceOf d = some ("newsapi")
    · have hnews : isNewsSource d = true := by simp [isNewsSource, hs]
      by_cases hk : keepDoc c d = true
      · simp [List.filter_cons, hk, hnews, ih]
      · simp [List.filter_cons, hk, hnews, ih]
    · have hk : keepDoc c d = true := by simp [keepDoc, hs]
      have hnews : isNewsSource d = false := by simp [isNewsSource, hs]
      simp [List.filter_cons, hk, hnews, ih]

/-- Dropping the overlap from every window after the first and
concatenating recovers the tail of the input: auxiliary form in which the
head window is also dropped. -/
theorem windowsGo_drop_flatten (c step : Nat) (hstep : 0 < step) (hsc : step ≤ c) :
    ∀ (fuel : Nat) (s : List Char), s.length ≤ fuel →
      ((windowsGo c step fuel s).map (List.drop (c - step))).flatten =
        s.drop (c - step) := by
  intro fuel
  induction fuel with
  | zero =>
    intro s hs
    have hnil : s = [] := List.length_eq_zero.mp (Nat.le_zero.mp hs)
    subst hnil
    simp [windowsGo]
  | succ fuel ih =>
    intro s hs
    by_cases hcond : s.length ≤ c ∨ step = 0
    · have hrw : windowsGo c step (fuel + 1) s = [s] := by
        simp only [windowsGo]
        rw [if_pos hcond]
      rw [hrw]
      simp
    · have hrw : windowsGo c step (fuel + 1) s =
          s.take c :: windowsGo c step fuel (s.drop step) := by
        simp only [windowsGo]
        rw [if_neg hcond]
      push_neg at hcond
      obtain ⟨hlen, _⟩ := hcond
      have hdrop : (s.drop step).length ≤ fuel := by
        rw [List.length_drop]
        omega
      rw [hrw, List.map_cons, List.flatten_cons, ih _ hdrop, List.drop_drop,
        List.drop_take]
      have h2 : c - (c - step) = step := Nat.sub_sub_self hsc
      have h3 : step + (c - step) = c := Nat.add_sub_cancel' hsc
      have h4 : List.drop c s = List.drop step (List.drop (c - step) s) := by
        rw [List.drop_drop, Nat.sub_add_cancel hsc]
      rw [h2, h3, h4, List.take_append_drop]

/-- Concatenating the unique, non-overlap spans of the sliding windows of
width `c` and stride `step` recovers the input exactly. -/
theorem windows_cover (c step : Nat) (hstep : 0 < step) (hsc : step ≤ c)
    (s : List Char) : uniqueConcat (c - step) (windows c step s) = s := by
  unfold windows
  cases hf : s.length with
  | zero =>
    have hnil : s = [] := List.length_eq_zero.mp hf
    subst hnil
    simp [windowsGo, uniqueConcat]
  | succ fuel =>
    by_cases hcond : s.length ≤ c ∨ step = 0
    · have hrw : windowsGo c step (fuel + 1) s = [s] := by
        simp only [windowsGo]
        rw [if_pos hcond]
      rw [hrw]
      simp [uniqueConcat]
    · have hrw : windowsGo c step (fuel + 1) s =
          s.take c :: windowsGo c step fuel (s.drop step) := by
        simp only [windowsGo]
        rw [if_neg hcond]
      push_neg at hcond
      obtain ⟨hlen, _⟩ := hcond
      have hdrop : (s.drop step).length ≤ fuel := by
        rw [List.length_drop]
        omega
      rw [hrw]
      simp only [uniqueConcat]
      rw [windowsGo_drop_flatten c step hstep hsc fuel _ hdrop, List.drop_drop]
      have h3 : step + (c - step) = c := Nat.add_sub_cancel' hsc
      rw [h3, List.take_append_drop]

/-! Claim theorems. -/

/-- Claim C1, counterexample to the claim as stated: the claim says that a
failing persistent write during upsert is surfaced to the caller as a
typed error that aborts the run.  In the code the broad
`except Exception` handler of `process_and_store_documents` catches the
failure, logs it, and returns normally: here `add_documents` fails with a
storage error on the exact chunks of the input document, yet the function
returns `Except.ok` with the store unchanged and no error value at all. -/
theorem claim_c1_counterexample :
    failingAdd [] (split_documents [newsDocJun]) =
      Except.error UpsertError.storageError
    ∧ process_and_store_documents [newsDocJun] [] failingAdd = Except.ok []
    ∧ (process_and_store_documents [newsDocJun] [] failingAdd).isOk = true :=
  ⟨rfl, rfl, rfl⟩

/-- Claim C1, amended: when the vector-store write (or the embedding
computation inside it) fails during upsert, `process_and_store_documents`
catches the exception, logs it, and returns normally with the store
unchanged; no typed error reaches the caller and the run continues. -/
theorem claim_c1 (docs store : List Document)
    (add_documents : List Document → List Document → Except UpsertError (List Document))
    (e : UpsertError)
    (h : add_documents store (split_documents docs) = Except.error e) :
    process_and_store_documents docs store add_documents = Except.ok store := by
  unfold process_and_store_documents
  by_cases hd : docs.isEmpty = true
  · rw [if_pos hd]
  · rw [if_neg hd]
    by_cases hsplit : (split_documents docs).isEmpty = true
    · rw [if_pos hsplit]
    · rw [if_neg hsplit, h]

/-- Claim C1, witness for the amended theorem at a concrete input. -/
theorem claim_c1_witness :
    process_and_store_documents [newsDocJun] [] failingAdd = Except.ok [] :=
  claim_c1 [newsDocJun] [] failingAdd UpsertError.storageError rfl

/-- Claim C2: for a document whose metadata source is `"newsapi"`, the
temporal filter keeps it if and only if its `publish_date` metadata is
present (non-empty), parses under one of the two accepted formats, and
the parsed date is at least the cutoff; a missing or unparsable
`publish_date` drops the document, and the filter returns a result (no
error propagates) whenever the cutoff string parses. -/
theorem claim_c2 (c : DateTime) (docs : List Document) (d : Document) (s : String)
    (hp : parseYMD s = some c) (hsrc : sourceOf d = some ("newsapi")) :
    filter_documents_by_date docs s = some (filterLoop c docs)
    ∧ (d ∈ filterLoop c docs ↔ d ∈ docs ∧ newsKeep c d = true) := by
  constructor
  · unfold filter_documents_by_date
    by_cases hd : docs.isEmpty = true
    · rw [if_pos hd, List.isEmpty_iff.mp hd]
      rfl
    · rw [if_neg hd, hp]
      rfl
  · rw [filterLoop_eq_filter, List.mem_filter]
    have hk : keepDoc c d = newsKeep c d := by simp [keepDoc, hsrc]
    rw [hk]

/-- Claim C2, witness: a news document dated 2024-06-01 against the
cutoff 2024-05-25 is kept. -/
theorem claim_c2_witness :
    filter_documents_by_date [newsDocJun] "2024-05-25" =
      some (filterLoop cutD [newsDocJun])
    ∧ (newsDocJun ∈ filterLoop cutD [newsDocJun] ↔
        newsDocJun ∈ [newsDocJun] ∧ newsKeep cutD newsDocJun = true) :=
  claim_c2 cutD [newsDocJun] newsDocJun ("2024-05-25") (by decide) (by decide)

/-- Claim C3: a document whose metadata source is anything other than
`"newsapi"` (any other value, or no source key at all) is kept by
`filter_documents_by_date` unconditionally, whatever the cutoff and
whether or not it has a `publish_date`; moreover the non-news documents
of the output are exactly those of the input, in order. -/
theorem claim_c3 (docs : List Document) (s : String) (out : List Document)
    (d : Document) (h : filter_documents_by_date docs s = some out)
    (hd : d ∈ docs) (hs : isNewsSource d = false) :
    d ∈ out
    ∧ out.filter (fun x => !(isNewsSource x)) =
        docs.filter (fun x => !(isNewsSource x)) := by
  rcases filter_dbd_some h with ⟨hde, houte⟩ | ⟨c, _, hout⟩
  · subst hde
    exact absurd hd (List.not_mem_nil d)
  · subst hout
    have hns : sourceOf d ≠ some ("newsapi") := by
      simpa [isNewsSource, decide_eq_false_iff_not] using hs
    constructor
    · exact List.mem_filter.mpr ⟨hd, by simp [keepDoc, hns]⟩
    · exact filter_keep_passthrough c docs

/-- Claim C3, witness: a website document with no `publish_date` is kept. -/
theorem claim_c3_witness :
    webDoc ∈ [newsDocJun, webDoc]
    ∧ ([newsDocJun, webDoc].filter (fun x => !(isNewsSource x)) =
        [newsDocJun, newsDocMay, webDoc].filter (fun x => !(isNewsSource x))) :=
  claim_c3 [newsDocJun, newsDocMay, webDoc] "2024-05-25" [newsDocJun, webDoc]
    webDoc (by decide) (by decide) (by decide)

/-- Claim C4: the Context Set returned by the orchestrator is exactly the
first `min 7 n` entries of the filtered-and-combined list of `n`
documents — a plain truncation to the first seven entries, with no
re-ranking. -/
theorem claim_c4 (retrieved : List Document) (s : String) (comb : List Document)
    (h : combined_filtered retrieved s = some comb) :
    retrieve_and_filter_context retrieved s = some (comb.take 7)
    ∧ (comb.take 7).length = min 7 comb.length := by
  constructor
  · unfold combined_filtered at h
    unfold retrieve_and_filter_context
    cases hf : filter_documents_by_date (retrieved.filter isNewsSource) s with
    | none => rw [hf] at h; exact absurd h (by simp)
    | some filtered =>
      rw [hf] at h
      have h2 : filtered ++ retrieved.filter isWebsiteSource = comb := by
        simpa using h
      simp [h2]
  · exact List.length_take 7 comb

/-- Claim C4, witness: with fifteen documents surviving the
filter-and-combine step, the orchestrator returns exactly the first
seven of them. -/
theorem claim_c4_witness :
    retrieve_and_filter_context (List.replicate 15 webDoc) "2024-05-25" =
      some ((List.replicate 15 webDoc).take 7)
    ∧ ((List.replicate 15 webDoc).take 7).length =
        min 7 (List.replicate 15 webDoc).length :=
  claim_c4 (List.replicate 15 webDoc) "2024-05-25" (List.replicate 15 webDoc)
    (by decide)

/-- Claim C5: the temporal filter preserves the relative order of the
input documents within each source partition (the kept news documents are
a sub-list of the input news documents, and the non-news documents pass
through unchanged and in order), and the orchestrator concatenates the
two partitions with the website documents appended after the filtered
news documents. -/
theorem claim_c5 (c : DateTime) (docs retrieved : List Document) (s : String)
    (hp : parseYMD s = some c) :
    ((filterLoop c docs).filter isNewsSource).Sublist (docs.filter isNewsSource)
    ∧ (filterLoop c docs).filter (fun x => !(isNewsSource x)) =
        docs.filter (fun x => !(isNewsSource x))
    ∧ combined_filtered retrieved s =
        some (filterLoop c (retrieved.filter isNewsSource) ++
          retrieved.filter isWebsiteSource) := by
  refine ⟨?_, ?_, ?_⟩
  · rw [filterLoop_eq_filter]
    exact (List.filter_sublist docs).filter isNewsSource
  · rw [filterLoop_eq_filter]
    exact filter_keep_passthrough c docs
  · unfold combined_filtered filter_documents_by_date
    by_cases hne : (retrieved.filter isNewsSource).isEmpty = true
    · rw [if_pos hne, List.isEmpty_iff.mp hne]
      rfl
    · rw [if_neg hne, hp]
      rfl

/-- Claim C5, witness at a concrete mixed document list. -/
theorem claim_c5_witness :
    ((filterLoop cutD [newsDocJun, webDoc]).filter isNewsSource).Sublist
        ([newsDocJun, webDoc].filter isNewsSource)
    ∧ (filterLoop cutD [newsDocJun, webDoc]).filter (fun x => !(isNewsSource x)) =
        [newsDocJun, webDoc].filter (fun x => !(isNewsSource x))
    ∧ combined_filtered [newsDocJun, webDoc] "2024-05-25" =
        some (filterLoop cutD ([newsDocJun, webDoc].filter isNewsSource) ++
          [newsDocJun, webDoc].filter isWebsiteSource) :=
  claim_c5 cutD [newsDocJun, webDoc] [newsDocJun, webDoc] "2024-05-25" (by decide)

/-- Claim C6: given an empty document sequence, or a sequence whose
chunking yields zero chunks, the store step returns without error and
without performing any upsert — for every possible `add_documents`
behaviour the result is `Except.ok` with the store unchanged. -/
theorem claim_c6 (docs store : List Document)
    (add_documents : List Document → List Document → Except UpsertError (List Document))
    (h : docs = [] ∨ split_documents docs = []) :
    process_and_store_documents docs store add_documents = Except.ok store := by
  unfold process_and_store_documents
  rcases h with h | h
  · subst h
    rfl
  · by_cases hd : docs.isEmpty = true
    · rw [if_pos hd]
    · rw [if_neg hd, if_pos (by simp [h])]

/-- Claim C6, witness: a whitespace-only document chunks to nothing, and
the store step leaves a failing store untouched and returns no error. -/
theorem claim_c6_witness :
    process_and_store_documents [wsDoc] [newsDocJun] failingAdd =
      Except.ok [newsDocJun] :=
  claim_c6 [wsDoc] [newsDocJun] failingAdd (Or.inr (by decide))

/-- Claim C7, counterexample to the claim as stated: a document whose
content is a single space is nonempty, but the chunker (per the
specification, section 4.1) produces zero chunks for an all-whitespace
document, so concatenating the unique spans of its chunks yields the
empty text, not the original content. -/
theorem claim_c7_counterexample :
    uniqueConcat 200 ((chunk_document 1000 200 wsDoc).map Document.page_content) ≠
      wsDoc.page_content := by
  decide

/-- Claim C7, amended: for every document whose content holds at least
one non-whitespace character, concatenating the produced chunks (chunk
size 1000, overlap 200) with the 200-character overlap removed from every
chunk after the first reproduces the content exactly; no characters are
dropped by chunking. -/
theorem claim_c7 (d : Document)
    (h : d.page_content.all Char.isWhitespace = false) :
    uniqueConcat 200 ((chunk_document 1000 200 d).map Document.page_content) =
      d.page_content := by
  unfold chunk_document
  rw [if_neg (by simp [h])]
  have hmap : ∀ ws : List (List Char),
      (ws.map (fun t => ({ page_content := t, metadata := d.metadata } : Document))).map
          Document.page_content = ws := by
    intro ws
    induction ws with
    | nil => rfl
    | cons w ws ih => simp [ih]
  rw [hmap]
  have hcover := windows_cover 1000 800 (by norm_num) (by norm_num) d.page_content
  norm_num at hcover ⊢
  exact hcover

/-- Claim C7, witness for the amended theorem at a concrete document. -/
theorem claim_c7_witness :
    uniqueConcat 200 ((chunk_document 1000 200 newsDocJun).map Document.page_content) =
      newsDocJun.page_content :=
  claim_c7 newsDocJun (by decide)

/-- Claim C8: every chunk produced from a parent document carries a
metadata mapping equal to the parent metadata, unmodified. -/
theorem claim_c8 (d ch : Document) (h : ch ∈ chunk_document 1000 200 d) :
    ch.metadata = d.metadata := by
  unfold chunk_document at h
  by_cases hw : d.page_content.all Char.isWhitespace = true
  · rw [if_pos hw] at h
    exact absurd h (List.not_mem_nil ch)
  · rw [if_neg hw] at h
    rcases List.mem_map.mp h with ⟨t, _, rfl⟩
    rfl

/-- Claim C8, witness: the single chunk of a short news document carries
the parent metadata. -/
theorem claim_c8_witness :
    (Document.mk ['a', 'b', 'c']
        [("source", "newsapi"), ("publish_date", "2024-06-01")]).metadata =
      newsDocJun.metadata :=
  claim_c8 newsDocJun
    (Document.mk ['a', 'b', 'c']
      [("source", "newsapi"), ("publish_date", "2024-06-01")])
    (by decide)

/-- Claim C9 (implicit): the orchestrator partitions the retrieved
candidates into the sources `"newsapi"` and `"website"` before filtering
and recombining, so a retrieved document whose source is neither value
(including one with no source key) never appears in the returned Context
Set, even though the temporal filter alone would keep any non-news
document. -/
theorem claim_c9 (retrieved : List Document) (s : String) (out : List Document)
    (d : Document) (h : retrieve_and_filter_context retrieved s = some out)
    (hn : sourceOf d ≠ some ("newsapi")) (hw : sourceOf d ≠ some ("website")) :
    d ∉ out := by
  intro hmem
  unfold retrieve_and_filter_context at h
  cases hf : filter_documents_by_date (retrieved.filter isNewsSource) s with
  | none =>
    rw [hf] at h
    exact absurd h (by simp)
  | some filtered =>
    rw [hf] at h
    have hout : out = (filtered ++ retrieved.filter isWebsiteSource).take 7 :=
      (Option.some.inj h).symm
    subst hout
    have hmem2 : d ∈ filtered ++ retrieved.filter isWebsiteSource :=
      List.take_subset 7 _ hmem
    rcases List.mem_append.mp hmem2 with hml | hmr
    · rcases filter_dbd_some hf with ⟨_, hfe⟩ | ⟨c, _, hfe⟩
      · subst hfe
        exact absurd hml (List.not_mem_nil d)
      · subst hfe
        have hd2 := (List.mem_filter.mp (List.mem_filter.mp hml).1).2
        exact hn (by simpa [isNewsSource] using hd2)
    · have hd2 := (List.mem_filter.mp hmr).2
      exact hw (by simpa [isWebsiteSource] using hd2)

/-- Claim C9, witness: a retrieved document with source `"blog"` is
absent from the returned Context Set. -/
theorem claim_c9_witness : blogDoc ∉ [webDoc] :=
  claim_c9 [blogDoc, webDoc] "2024-05-25" [webDoc] blogDoc (by decide)
    (by decide) (by decide)

/-- Claim C10 (implicit): the output of `filter_documents_by_date` is a
sub-list of its input in the original global input order — every kept
document appears once per input occurrence, nothing is added or
duplicated, and the single pass never reorders documents, even across the
news and non-news partitions. -/
theorem claim_c10 (docs : List Document) (s : String) (out : List Document)
    (h : filter_documents_by_date docs s = some out) : out.Sublist docs := by
  rcases filter_dbd_some h with ⟨hde, houte⟩ | ⟨c, _, hout⟩
  · subst hde
    subst houte
    exact List.Sublist.refl []
  · subst hout
    exact List.filter_sublist docs

/-- Claim C10, witness at a concrete mixed document list. -/
theorem claim_c10_witness :
    List.Sublist [newsDocJun, webDoc] [newsDocJun, newsDocMay, webDoc] :=
  claim_c10 [newsDocJun, newsDocMay, webDoc] "2024-05-25" [newsDocJun, webDoc]
    (by decide)

end CIR
